import Mathlib

/-
Verification development for the pytheus Redis backend (src/lib.rs).

The Rust source is shallowly embedded: the remote redis store is an explicit
state record, the background worker is a step function from a job to a new
store plus the list of result messages it delivers, and the label/key
derivation of the constructor is a pure function on association lists
(Python dict / Rust HashMap contents).  f64 values are modelled by Lean
Float; no arithmetic fact about Float is ever needed, values are only moved
around.
-/

/-- Mirrors the constant EXPIRE_KEY_SECONDS = 3600 (src/lib.rs line 14). -/
def EXPIRE_KEY_SECONDS : Nat := 3600

/-- Mirrors enum BackendAction (src/lib.rs lines 16-22). -/
inductive BackendAction
  | inc
  | dec
  | set
  | get
deriving DecidableEq

/-- One redis command that the source can place in a pipeline or issue
directly: GET, HGET, or EXPIRE. -/
inductive PipeCmd
  | get (key : String)
  | hget (key field : String)
  | expire (key : String) (seconds : Nat)
deriving DecidableEq

/-- One pipeline entry: a command plus whether its reply is discarded,
mirroring the .ignore() marker used on every EXPIRE queued by
_generate_samples (src/lib.rs line 319). -/
structure PipeEntry where
  cmd : PipeCmd
  ignored : Bool
deriving DecidableEq

/-- Mirrors struct RedisJob (src/lib.rs lines 30-37).  The one-shot result
sender result_tx is modelled by the flag has_result_tx; the messages the
worker actually sends on it are returned by workerStep. -/
structure RedisJob where
  action : BackendAction
  key_name : String
  labels_hash : Option String
  value : Float
  has_result_tx : Bool
  pipeline : Option (List PipeEntry)

/-- The remote redis store: plain string keys holding numbers, hash keys
holding field-to-number tables, and a time-to-live table. -/
structure Store where
  plain : String → Option Float
  hashes : String → String → Option Float
  ttl : String → Option Nat

/-- A store with no keys at all. -/
def emptyStore : Store :=
  { plain := fun _ => none, hashes := fun _ _ => none, ttl := fun _ => none }

/-- Redis INCRBYFLOAT: a missing key counts as 0 before the addition. -/
def incrByFloat (s : Store) (key : String) (v : Float) : Store :=
  { s with plain := fun k =>
      if k = key then some ((s.plain key).getD 0.0 + v) else s.plain k }

/-- Redis HINCRBYFLOAT on field of a hash key: a missing field counts as 0. -/
def hincrByFloat (s : Store) (key field : String) (v : Float) : Store :=
  { s with hashes := fun k f =>
      if k = key then
        (if f = field then some ((s.hashes key field).getD 0.0 + v)
         else s.hashes k f)
      else s.hashes k f }

/-- Redis SET: overwrite a plain key. -/
def setStore (s : Store) (key : String) (v : Float) : Store :=
  { s with plain := fun k => if k = key then some v else s.plain k }

/-- Redis HSET: overwrite one field of a hash key. -/
def hsetStore (s : Store) (key field : String) (v : Float) : Store :=
  { s with hashes := fun k f =>
      if k = key then (if f = field then some v else s.hashes k f)
      else s.hashes k f }

/-- Redis EXPIRE: set the time-to-live of a key. -/
def expireKey (s : Store) (key : String) (secs : Nat) : Store :=
  { s with ttl := fun k => if k = key then some secs else s.ttl k }

/-- The reply a single pipeline command produces, as the source decodes it:
a Vec of Option f64, where a missing key or field is none.  EXPIRE replies
are never decoded by the source (always ignored), so their slot is none. -/
def runCmd (s : Store) : PipeCmd → Option Float
  | .get k => s.plain k
  | .hget k f => s.hashes k f
  | .expire _ _ => none

/-- The store mutation a single pipeline command performs.  GET and HGET do
not change the store; EXPIRE refreshes the time-to-live. -/
def applyCmd (s : Store) : PipeCmd → Store
  | .expire k secs => expireKey s k secs
  | _ => s

/-- Execute a pipeline in order against the store, collecting the replies of
the non-ignored commands (pipe.query in the source returns exactly those). -/
def execPipeline : Store → List PipeEntry → Store × List (Option Float)
  | s, [] => (s, [])
  | s, e :: rest =>
      let reply := runCmd s e.cmd
      let next := execPipeline (applyCmd s e.cmd) rest
      (next.1, if e.ignored then next.2 else reply :: next.2)

/-- One iteration of the worker loop (src/lib.rs lines 203-273) on a received
job: the resulting store, paired with the list of result messages sent on the
result channel of the job.  none models a worker panic (an unwrap of a
missing pipeline or result sender in the Get branch). -/
def workerStep (s : Store) (j : RedisJob) : Option (Store × List (List Float)) :=
  match j.action with
  | .inc | .dec =>
      let s1 := match j.labels_hash with
        | some h => hincrByFloat s j.key_name h j.value
        | none => incrByFloat s j.key_name j.value
      some (expireKey s1 j.key_name EXPIRE_KEY_SECONDS, [])
  | .set =>
      let s1 := match j.labels_hash with
        | some h => hsetStore s j.key_name h j.value
        | none => setStore s j.key_name j.value
      some (expireKey s1 j.key_name EXPIRE_KEY_SECONDS, [])
  | .get =>
      match j.pipeline with
      | none => none
      | some p =>
          let r := execPipeline s p
          if j.has_result_tx then
            some (r.1, [r.2.map (fun v => v.getD 0.0)])
          else none

/-- The immutable per-metric data of a RedisBackend handle. -/
structure Handle where
  key_name : String
  labels_hash : Option String

/-- The job built by the inc method (src/lib.rs lines 366-377). -/
def Handle.inc (b : Handle) (value : Float) : RedisJob :=
  { action := .inc, key_name := b.key_name, labels_hash := b.labels_hash,
    value := value, has_result_tx := false, pipeline := none }

/-- The job built by the dec method (src/lib.rs lines 379-390): the sent
value is the negation of the argument. -/
def Handle.dec (b : Handle) (value : Float) : RedisJob :=
  { action := .dec, key_name := b.key_name, labels_hash := b.labels_hash,
    value := -value, has_result_tx := false, pipeline := none }

/-- The job built by the set method (src/lib.rs lines 392-403). -/
def Handle.set (b : Handle) (value : Float) : RedisJob :=
  { action := .set, key_name := b.key_name, labels_hash := b.labels_hash,
    value := value, has_result_tx := false, pipeline := none }

/-- HashMap insert of one key-value pair into an association list: if the
key is present its value is replaced, otherwise the pair is appended. -/
def insertPair (m : List (String × String)) (kv : String × String) :
    List (String × String) :=
  if m.any (fun p => p.1 = kv.1) then
    m.map (fun p => if p.1 = kv.1 then (p.1, kv.2) else p)
  else m ++ [kv]

/-- HashMap extend: default_labels.extend(metric_labels) in the constructor
(src/lib.rs line 164) - every metric pair is inserted into the default map,
so a metric value wins for a shared label name. -/
def extendMap (d m : List (String × String)) : List (String × String) :=
  m.foldl insertPair d

/-- labels.values().sorted().join("-") (src/lib.rs line 172): the values of
the merged mapping, sorted lexicographically, joined with a dash. -/
def hashJoin (l : List (String × String)) : String :=
  String.intercalate "-" (List.insertionSort (· ≤ ·) (l.map Prod.snd))

/-- The to_hash block of the constructor (src/lib.rs lines 161-170).  In the
source, metric_labels is some only when the metric _labels dict is truthy
(non-empty) and default_labels is some only when _default_labels_count is
truthy; both conversions are the isEmpty tests here. -/
def mergedLabels (dlab mlab : List (String × String)) :
    Option (List (String × String)) :=
  let metricLabels := if mlab.isEmpty then none else some mlab
  let defaultLabels := if dlab.isEmpty then none else some dlab
  match defaultLabels with
  | some d =>
      some (match metricLabels with
            | some m => extendMap d m
            | none => d)
  | none => metricLabels

/-- labels_hash as computed by the constructor from the default and metric
label mappings (src/lib.rs lines 140-172). -/
def labelsHashOf (dlab mlab : List (String × String)) : Option String :=
  (mergedLabels dlab mlab).map hashJoin

/-- Modelled from the words of the specification, for comparison with
labelsHashOf: if instance labels are non-empty, start from them, overlaying
them onto default labels when those exist; if instance labels are empty but
default labels exist, use default labels alone; if neither exists there is
no hash; the hash is the merged values sorted lexicographically and joined
with a dash. -/
def labelsHashSpec (dlab mlab : List (String × String)) : Option String :=
  if mlab.isEmpty then
    if dlab.isEmpty then none else some (hashJoin dlab)
  else
    if dlab.isEmpty then some (hashJoin mlab)
    else some (hashJoin (extendMap dlab mlab))

/-- Python-level exceptions the binding layer can produce. -/
inductive PyErr
  | keyError (k : String)
  | typeError
  | exception (msg : String)
deriving DecidableEq

/-- A Python value held in the config dict. -/
inductive PyVal
  | str (s : String)
  | int (n : Int)
  | other
deriving DecidableEq

/-- Extraction of a Rust string slice from a Python value. -/
def extractStr : PyVal → Except PyErr String
  | .str s => .ok s
  | _ => .error .typeError

/-- Extraction of a u16 port from a Python value. -/
def extractPort : PyVal → Except PyErr Nat
  | .int n => if 0 ≤ n ∧ n < 65536 then .ok n.toNat else .error .typeError
  | _ => .error .typeError

/-- The externally visible side effects of class initialization, in order:
opening the redis connection, caching the job sender in the process-wide
cell, and spawning the worker thread. -/
inductive InitEffect
  | connect (host : String) (port : Nat)
  | cacheSender
  | spawnWorker
deriving DecidableEq

/-- The class-level _initialize method (src/lib.rs lines 184-277): look up
host, then port, in the config dict (a missing key raises KeyError), open
the connection (which may fail), then cache the channel sender and spawn the
worker.  Returns the effects performed together with the error raised, if
any.  connectOk abstracts whether the redis server is reachable. -/
def initBackend (config : List (String × PyVal)) (connectOk : Bool) :
    List InitEffect × Option PyErr :=
  match List.lookup "host" config with
  | none => ([], some (PyErr.keyError "host"))
  | some hv =>
    match extractStr hv with
    | .error e => ([], some e)
    | .ok host =>
      match List.lookup "port" config with
      | none => ([], some (PyErr.keyError "port"))
      | some pv =>
        match extractPort pv with
        | .error e => ([], some e)
        | .ok port =>
          if connectOk then
            ([.connect host port, .cacheSender, .spawnWorker], none)
          else
            ([.connect host port], some (.exception "redis connection error"))

/-- The possible outcomes of the RedisBackend constructor: a Rust panic (an
unwrap failure), a Python exception, or a constructed handle. -/
inductive NewOutcome
  | panic
  | pyerr (e : PyErr)
  | handle (key_name : String) (labels_hash : Option String)

/-- The constructor RedisBackend::new (src/lib.rs lines 121-182).  The first
statement unwraps the process-wide channel cell REDIS_JOB_TX: when the cell
is still empty (class _initialize never ran) this panics before anything
else happens.  The attribute extractions from the metric object are
abstracted as Except values; any failure propagates as a Python error. -/
def redisBackendNew (cell : Option Unit) (metricName : Except PyErr String)
    (bucket : Option String)
    (metricLabels : Except PyErr (List (String × String)))
    (defaultLabels : Except PyErr (List (String × String))) : NewOutcome :=
  match cell with
  | none => .panic
  | some _ =>
    match metricName with
    | .error e => .pyerr e
    | .ok name =>
      let key := match bucket with
        | some b => name ++ ":" ++ b
        | none => name
      match metricLabels with
      | .error e => .pyerr e
      | .ok mlab =>
        match defaultLabels with
        | .error e => .pyerr e
        | .ok dlab => .handle key (labelsHashOf dlab mlab)

/-- The key_name of a successfully constructed handle. -/
def keyNameOf : NewOutcome → Option String
  | .handle k _ => some k
  | _ => none

/-- One sample yielded by a collector during a snapshot pass: its suffix,
label mapping, and the backend handle stored in its value slot. -/
structure SampleIn where
  suffix : String
  labels : Option (List (String × String))
  backend : Handle

/-- Mirrors struct OutSample (src/lib.rs lines 62-71). -/
structure OutSample where
  suffix : String
  labels : Option (List (String × String))
  value : Float

/-- The placeholder pushed for each sample: value 0.0 (src/lib.rs line 308). -/
def placeholderOf (smp : SampleIn) : OutSample :=
  { suffix := smp.suffix, labels := smp.labels, value := 0.0 }

/-- The nested placeholder lists, one inner list per collector. -/
def placeholders (colls : List (List SampleIn)) : List (List OutSample) :=
  colls.map (fun c => c.map placeholderOf)

/-- The two pipeline entries queued for one sample (src/lib.rs lines
311-319): an HGET or GET whose reply is kept, then an EXPIRE whose reply is
ignored. -/
def samplePipe (smp : SampleIn) : List PipeEntry :=
  [{ cmd := match smp.backend.labels_hash with
      | some h => PipeCmd.hget smp.backend.key_name h
      | none => PipeCmd.get smp.backend.key_name,
     ignored := false },
   { cmd := PipeCmd.expire smp.backend.key_name EXPIRE_KEY_SECONDS,
     ignored := true }]

/-- The pipeline contribution of one collector, samples in order. -/
def collectorPipe : List SampleIn → List PipeEntry
  | [] => []
  | smp :: rest => samplePipe smp ++ collectorPipe rest

/-- The full pipeline of a snapshot pass, collectors in order. -/
def buildPipeline : List (List SampleIn) → List PipeEntry
  | [] => []
  | c :: cs => collectorPipe c ++ buildPipeline cs

/-- The zip loop distributing returned values onto the flattened placeholder
list (src/lib.rs lines 356-358): iteration stops at the shorter of the two
lists, leftover placeholders are returned unchanged and leftover values are
dropped. -/
def assignFlat : List OutSample → List Float → List OutSample
  | [], _ => []
  | rest, [] => rest
  | o :: rest, v :: vs => { o with value := v } :: assignFlat rest vs

/-- The same distribution on the nested per-collector lists: the flattening
in the source works through mutable references, so writing the first group
consumes a prefix of the value vector and the rest flows to later groups. -/
def assignNested : List (List OutSample) → List Float → List (List OutSample)
  | [], _ => []
  | g :: gs, vs => assignFlat g vs :: assignNested gs (vs.drop g.length)

/-- The class-level _generate_samples method (src/lib.rs lines 279-364) with
the registry walk already performed: from the per-collector sample lists,
build the pipeline and the placeholders, submit one Get job carrying the
pipeline and a fresh result channel, receive the value vector, and zip it
onto the flattened placeholders.  none models a panic (worker dead or no
message ever delivered). -/
def generateSamples (s : Store) (colls : List (List SampleIn)) :
    Option (Store × List (List OutSample)) :=
  let pipe := buildPipeline colls
  match workerStep s { action := .get, key_name := "", labels_hash := none,
                       value := (0.0 : Float) / 0.0, has_result_tx := true,
                       pipeline := some pipe } with
  | none => none
  | some w =>
    match w.2 with
    | [] => none
    | values :: _ => some (w.1, assignNested (placeholders colls) values)

/-- The number of replies a pipeline produces: its non-ignored commands. -/
def readCount (p : List PipeEntry) : Nat :=
  (p.filter (fun e => !e.ignored)).length

/-- The total number of samples over all collectors. -/
def totalSamples (colls : List (List SampleIn)) : Nat :=
  (colls.map List.length).sum

/-- The raw replies the worker obtains for a snapshot pass over colls. -/
def repliesOf (s : Store) (colls : List (List SampleIn)) : List (Option Float) :=
  (execPipeline s (buildPipeline colls)).2

/-- The nested output sample lists of a snapshot pass. -/
def outputOf (s : Store) (colls : List (List SampleIn)) : List (List OutSample) :=
  (generateSamples s colls).elim [] Prod.snd

/-- The result messages a worker step delivers (none at all on a panic). -/
def sentOf (o : Option (Store × List (List Float))) : List (List Float) :=
  o.elim [] Prod.snd

/-- The time-to-live of a key after a worker step, when the step completes. -/
def ttlAfter (o : Option (Store × List (List Float))) (k : String) :
    Option (Option Nat) :=
  o.map (fun w => w.1.ttl k)

/-- A hash field after a worker step, when the step completes. -/
def hashAfter (o : Option (Store × List (List Float))) (k f : String) :
    Option (Option Float) :=
  o.map (fun w => w.1.hashes k f)

/-- A plain key after a worker step, when the step completes. -/
def plainAfter (o : Option (Store × List (List Float))) (k : String) :
    Option (Option Float) :=
  o.map (fun w => w.1.plain k)

/-- The suffix and label mapping of an output sample. -/
def outMeta (o : OutSample) : String × Option (List (String × String)) :=
  (o.suffix, o.labels)

/-- The suffix and label mapping of an input sample. -/
def inMeta (smp : SampleIn) : String × Option (List (String × String)) :=
  (smp.suffix, smp.labels)

/-- Abbreviation for building a job record positionally. -/
def mkJob (a : BackendAction) (kn : String) (lh : Option String) (v : Float)
    (tx : Bool) (pl : Option (List PipeEntry)) : RedisJob :=
  { action := a, key_name := kn, labels_hash := lh, value := v,
    has_result_tx := tx, pipeline := pl }

/-- C4: for every value v and every backend handle, dec v is exactly
equivalent to inc (-v): the two jobs carry the same key_name and the same
labels_hash, and the worker applies them to any store with the identical
effect (the same hash-field or plain-key increment by -v followed by the
same TTL refresh, and no result message). -/
theorem dec_is_inc_of_neg (b : Handle) (v : Float) (s : Store) :
    (b.dec v).key_name = (b.inc (-v)).key_name
    ∧ (b.dec v).labels_hash = (b.inc (-v)).labels_hash
    ∧ workerStep s (b.dec v) = workerStep s (b.inc (-v)) :=
  ⟨rfl, rfl, rfl⟩

/-- C6: every mutation job (Increment, Decrement or Set) processed by the
worker leaves the TTL of key_name at exactly EXPIRE_KEY_SECONDS, which
equals 3600 seconds. -/
theorem mutation_refreshes_ttl (s : Store) (key : String) (hsh : Option String)
    (v : Float) (tx : Bool) (pl : Option (List PipeEntry)) :
    ttlAfter (workerStep s (mkJob .inc key hsh v tx pl)) key
        = some (some EXPIRE_KEY_SECONDS)
    ∧ ttlAfter (workerStep s (mkJob .dec key hsh v tx pl)) key
        = some (some EXPIRE_KEY_SECONDS)
    ∧ ttlAfter (workerStep s (mkJob .set key hsh v tx pl)) key
        = some (some EXPIRE_KEY_SECONDS)
    ∧ EXPIRE_KEY_SECONDS = 3600 := by
  refine ⟨?_, ?_, ?_, rfl⟩ <;> simp [ttlAfter, workerStep, mkJob, expireKey]

/-- C7: worker targeting of mutations.  With a labels_hash the worker
increments exactly the hash field (key_name, labels_hash) and leaves every
plain key untouched; without one it increments exactly the plain key
key_name and leaves every hash field untouched; Set targets the same key or
field but overwrites instead of incrementing. -/
theorem worker_mutation_targeting (s : Store) (key h : String) (v : Float)
    (tx : Bool) (pl : Option (List PipeEntry)) (k f : String) :
    hashAfter (workerStep s (mkJob .inc key (some h) v tx pl)) k f
      = some (if k = key then
          (if f = h then some ((s.hashes key h).getD 0.0 + v) else s.hashes k f)
          else s.hashes k f)
    ∧ plainAfter (workerStep s (mkJob .inc key (some h) v tx pl)) k
      = some (s.plain k)
    ∧ plainAfter (workerStep s (mkJob .inc key none v tx pl)) k
      = some (if k = key then some ((s.plain key).getD 0.0 + v) else s.plain k)
    ∧ hashAfter (workerStep s (mkJob .inc key none v tx pl)) k f
      = some (s.hashes k f)
    ∧ hashAfter (workerStep s (mkJob .dec key (some h) v tx pl)) k f
      = some (if k = key then
          (if f = h then some ((s.hashes key h).getD 0.0 + v) else s.hashes k f)
          else s.hashes k f)
    ∧ plainAfter (workerStep s (mkJob .dec key (some h) v tx pl)) k
      = some (s.plain k)
    ∧ plainAfter (workerStep s (mkJob .dec key none v tx pl)) k
      = some (if k = key then some ((s.plain key).getD 0.0 + v) else s.plain k)
    ∧ hashAfter (workerStep s (mkJob .dec key none v tx pl)) k f
      = some (s.hashes k f)
    ∧ hashAfter (workerStep s (mkJob .set key (some h) v tx pl)) k f
      = some (if k = key then (if f = h then some v else s.hashes k f)
          else s.hashes k f)
    ∧ plainAfter (workerStep s (mkJob .set key (some h) v tx pl)) k
      = some (s.plain k)
    ∧ plainAfter (workerStep s (mkJob .set key none v tx pl)) k
      = some (if k = key then some v else s.plain k)
    ∧ hashAfter (workerStep s (mkJob .set key none v tx pl)) k f
      = some (s.hashes k f) :=
  ⟨rfl, rfl, rfl, rfl, rfl, rfl, rfl, rfl, rfl, rfl, rfl, rfl⟩

/-- C9: with a histogram bucket identifier the key_name of a constructed
handle is the metric name suffixed with a colon and the bucket identifier;
without one it is the metric name unchanged. -/
theorem key_name_from_bucket (name b : String)
    (dlab mlab : List (String × String)) :
    keyNameOf (redisBackendNew (some ()) (.ok name) (some b)
        (.ok mlab) (.ok dlab)) = some (name ++ ":" ++ b)
    ∧ keyNameOf (redisBackendNew (some ()) (.ok name) none
        (.ok mlab) (.ok dlab)) = some name :=
  ⟨rfl, rfl⟩

/-- C10: constructing a RedisBackend handle while the process-wide channel
cell is still empty (class _initialize never ran) panics - the outcome is a
panic, not a Python error and not a handle, whatever the metric arguments
are. -/
theorem new_before_init_panics (metricName : Except PyErr String)
    (bucket : Option String)
    (mlab dlab : Except PyErr (List (String × String))) :
    redisBackendNew none metricName bucket mlab dlab = .panic :=
  rfl


/-- Lookup in an association list, the first matching key wins (the list
models a HashMap, so keys occur at most once). -/
def lookupKey (k : String) : List (String × String) → Option String
  | [] => none
  | (k1, v) :: tl => if k = k1 then some v else lookupKey k tl

/-- Replacing the value stored at one key does not change lookups of other
keys. -/
theorem lookup_map_replace (d : List (String × String)) (k k0 v0 : String)
    (hk : k ≠ k0) :
    lookupKey k (d.map (fun p => if p.1 = k0 then (p.1, v0) else p))
      = lookupKey k d := by
  induction d with
  | nil => rfl
  | cons hdp tl ih =>
      obtain ⟨k1, v1⟩ := hdp
      by_cases h1 : k1 = k0
      · subst h1
        have hk1 : ¬ k = k1 := hk
        simp only [List.map_cons, if_pos rfl]
        simp [lookupKey, hk1, ih]
      · simp only [List.map_cons, if_neg h1]
        by_cases h2 : k = k1 <;> simp [lookupKey, h2, ih]

/-- After replacing the value at a present key, looking that key up yields
the new value. -/
theorem lookup_map_replace_self (d : List (String × String)) (k0 v0 : String)
    (hany : (d.any fun p => decide (p.1 = k0)) = true) :
    lookupKey k0 (d.map (fun p => if p.1 = k0 then (p.1, v0) else p))
      = some v0 := by
  induction d with
  | nil => simp at hany
  | cons hdp tl ih =>
      obtain ⟨k1, v1⟩ := hdp
      by_cases h1 : k1 = k0
      · subst h1
        simp only [List.map_cons, if_pos rfl]
        simp [lookupKey]
      · have htl : (tl.any fun p => decide (p.1 = k0)) = true := by
          simp only [List.any_cons, Bool.or_eq_true, decide_eq_true_eq] at hany
          rcases hany with h | h
          · exact absurd h h1
          · exact h
        have hne : ¬ k0 = k1 := fun hh => h1 hh.symm
        simp only [List.map_cons, if_neg h1]
        simp [lookupKey, hne, ih htl]

/-- Looking up a key in an association list extended by one trailing pair. -/
theorem lookup_append_single (d : List (String × String)) (k k0 v0 : String) :
    lookupKey k (d ++ [(k0, v0)])
      = (lookupKey k d).or (if k = k0 then some v0 else none) := by
  induction d with
  | nil => by_cases hk : k = k0 <;> simp [lookupKey, hk]
  | cons hdp tl ih =>
      obtain ⟨k1, v1⟩ := hdp
      by_cases h1 : k = k1 <;> simp [lookupKey, h1, ih]

/-- A key that is in no pair of an association list looks up to none. -/
theorem lookup_eq_none_of_not_mem_keys (m : List (String × String))
    (k : String) (h : k ∉ m.map Prod.fst) : lookupKey k m = none := by
  induction m with
  | nil => rfl
  | cons p tl ih =>
      obtain ⟨k1, v1⟩ := p
      simp only [List.map_cons, List.mem_cons, not_or] at h
      simp [lookupKey, h.1, ih h.2]

/-- A key on which the membership test of insertPair fails looks up to
none. -/
theorem lookup_eq_none_of_any_false (d : List (String × String)) (k0 : String)
    (h : (d.any fun p => decide (p.1 = k0)) = false) : lookupKey k0 d = none := by
  induction d with
  | nil => rfl
  | cons p tl ih =>
      obtain ⟨k1, v1⟩ := p
      simp only [List.any_cons, Bool.or_eq_false_iff, decide_eq_false_iff_not] at h
      have hne : ¬ k0 = k1 := fun hh => h.1 hh.symm
      simp [lookupKey, hne, ih h.2]

/-- Characterization of one HashMap insert: the inserted key now maps to the
inserted value, every other key is unchanged. -/
theorem lookup_insertPair (d : List (String × String)) (k0 v0 k : String) :
    lookupKey k (insertPair d (k0, v0))
      = if k = k0 then some v0 else lookupKey k d := by
  have hred : insertPair d (k0, v0)
      = if (d.any fun p => decide (p.1 = k0)) = true then
          d.map (fun p => if p.1 = k0 then (p.1, v0) else p)
        else d ++ [(k0, v0)] := rfl
  rw [hred]
  by_cases hany : (d.any fun p => decide (p.1 = k0)) = true
  · rw [if_pos hany]
    by_cases hk : k = k0
    · subst hk; rw [if_pos rfl]; exact lookup_map_replace_self d k v0 hany
    · rw [if_neg hk]; exact lookup_map_replace d k k0 v0 hk
  · rw [if_neg hany]
    rw [lookup_append_single]
    have hfalse : (d.any fun p => decide (p.1 = k0)) = false := by
      cases hca : (d.any fun p => decide (p.1 = k0)) with
      | false => rfl
      | true => exact absurd hca hany
    by_cases hk : k = k0
    · subst hk
      have hnone : lookupKey k d = none :=
        lookup_eq_none_of_any_false d k hfalse
      simp [hnone]
    · simp [hk]

/-- Characterization of HashMap extend: a metric label value wins over a
default label value for a shared label name, and every other lookup is
unchanged (the metric keys are distinct, being keys of a dict). -/
theorem lookup_extendMap (m : List (String × String)) :
    ∀ (d : List (String × String)) (k : String),
      (m.map Prod.fst).Nodup →
      lookupKey k (extendMap d m)
        = (lookupKey k m).or (lookupKey k d) := by
  induction m with
  | nil => intro d k _; simp [extendMap, lookupKey]
  | cons hdp m2 ih =>
      intro d k hnd
      obtain ⟨k0, v0⟩ := hdp
      simp only [List.map_cons, List.nodup_cons] at hnd
      have hstep : extendMap d ((k0, v0) :: m2)
          = extendMap (insertPair d (k0, v0)) m2 := rfl
      rw [hstep, ih _ k hnd.2, lookup_insertPair]
      by_cases hk : k = k0
      · subst hk
        have hnone : lookupKey k m2 = none :=
          lookup_eq_none_of_not_mem_keys m2 k hnd.1
        simp [lookupKey, hnone]
      · simp [lookupKey, hk]

/-- C3: labels_hash derivation.  The handle derivation agrees with the
specification text on every input: non-empty instance labels are used,
overlaid onto default labels when those exist; empty instance labels fall
back to default labels alone; with neither there is no hash; and the hash
of the merged mapping is its values sorted lexicographically joined with a
dash.  The lookup clause states that the overlay gives the instance value
priority for a shared label name. -/
theorem label_derivation_matches_spec (dlab mlab : List (String × String))
    (k : String) (hm : (mlab.map Prod.fst).Nodup) :
    labelsHashOf dlab mlab = labelsHashSpec dlab mlab
    ∧ lookupKey k (extendMap dlab mlab)
        = (lookupKey k mlab).or (lookupKey k dlab) := by
  constructor
  · cases dlab <;> cases mlab <;>
      simp [labelsHashOf, labelsHashSpec, mergedLabels]
  · exact lookup_extendMap mlab dlab k hm

/-- Witness for C3: concrete default labels env=prod, region=eu and instance
labels env=dev; the instance value wins for the shared name env. -/
theorem label_derivation_matches_spec_witness :
    ([("env", "dev")].map Prod.fst).Nodup
    ∧ (labelsHashOf [("env", "prod"), ("region", "eu")] [("env", "dev")]
        = labelsHashSpec [("env", "prod"), ("region", "eu")] [("env", "dev")]
      ∧ lookupKey "env"
          (extendMap [("env", "prod"), ("region", "eu")] [("env", "dev")])
        = (lookupKey "env" [("env", "dev")]).or
            (lookupKey "env" [("env", "prod"), ("region", "eu")])) :=
  ⟨by decide, label_derivation_matches_spec _ _ _ (by decide)⟩

/-- C2: the labels_hash depends only on the multiset of label values of the
merged mapping.  Whenever two constructions produce merged mappings whose
value lists are permutations of one another - whatever the label names, the
name permutation, or the insertion order - the computed labels_hash is
identical, so distinct label sets sharing a value multiset collide. -/
theorem labels_hash_value_multiset (d1 m1 d2 m2 u1 u2 : List (String × String))
    (h1 : mergedLabels d1 m1 = some u1) (h2 : mergedLabels d2 m2 = some u2)
    (hperm : (u1.map Prod.snd).Perm (u2.map Prod.snd)) :
    labelsHashOf d1 m1 = labelsHashOf d2 m2 := by
  have hs : List.insertionSort (· ≤ ·) (u1.map Prod.snd)
      = List.insertionSort (· ≤ ·) (u2.map Prod.snd) :=
    List.eq_of_perm_of_sorted
      (((List.perm_insertionSort _ _).trans hperm).trans
        (List.perm_insertionSort _ _).symm)
      (List.sorted_insertionSort _ _) (List.sorted_insertionSort _ _)
  have hj : hashJoin u1 = hashJoin u2 := by
    unfold hashJoin
    rw [hs]
  unfold labelsHashOf
  rw [h1, h2]
  show some (hashJoin u1) = some (hashJoin u2)
  rw [hj]

/-- Witness for C2: the label sets method=GET, status=200 and path=200,
host=GET share only the value multiset, yet hash identically. -/
theorem labels_hash_value_multiset_witness :
    mergedLabels [] [("method", "GET"), ("status", "200")]
        = some [("method", "GET"), ("status", "200")]
    ∧ mergedLabels [] [("path", "200"), ("host", "GET")]
        = some [("path", "200"), ("host", "GET")]
    ∧ ([("method", "GET"), ("status", "200")].map Prod.snd).Perm
        ([("path", "200"), ("host", "GET")].map Prod.snd)
    ∧ labelsHashOf [] [("method", "GET"), ("status", "200")]
        = labelsHashOf [] [("path", "200"), ("host", "GET")] :=
  ⟨rfl, rfl, by decide,
   labels_hash_value_multiset _ _ _ _ _ _ rfl rfl (by decide)⟩

/-- C8: when the config dict lacks the host entry or the port entry, class
initialization fails synchronously with a KeyError surfaced to the caller
and performs no side effect: no connection is opened, no queue sender is
cached, no worker is spawned. -/
theorem init_missing_config (config : List (String × PyVal)) (connectOk : Bool) :
    (List.lookup "host" config = none →
        initBackend config connectOk = ([], some (PyErr.keyError "host")))
    ∧ (List.lookup "port" config = none →
        (initBackend config connectOk).1 = []
        ∧ ((initBackend config connectOk).2).isSome = true) := by
  constructor
  · intro hh
    simp [initBackend, hh]
  · intro hp
    cases hh : List.lookup "host" config with
    | none => simp [initBackend, hh]
    | some hv =>
        cases he : extractStr hv with
        | error e => simp [initBackend, hh, he]
        | ok host => simp [initBackend, hh, he, hp]

/-- Witness for C8: a config holding only a host entry; initialization
reports an error and the effect list stays empty. -/
theorem init_missing_config_witness :
    List.lookup "port" [("host", PyVal.str "localhost")] = none
    ∧ (initBackend [("host", PyVal.str "localhost")] true).1 = []
    ∧ ((initBackend [("host", PyVal.str "localhost")] true).2).isSome = true :=
  ⟨rfl, (init_missing_config [("host", PyVal.str "localhost")] true).2 rfl⟩

/-- A pipeline produces exactly one reply per non-ignored command. -/
theorem execPipeline_length (p : List PipeEntry) :
    ∀ s : Store, (execPipeline s p).2.length = readCount p := by
  induction p with
  | nil => intro s; rfl
  | cons e rest ih =>
      intro s
      show (if e.ignored then (execPipeline (applyCmd s e.cmd) rest).2
            else runCmd s e.cmd :: (execPipeline (applyCmd s e.cmd) rest).2).length
          = readCount (e :: rest)
      cases he : e.ignored <;>
        (simp [he, readCount, List.filter_cons]; exact ih (applyCmd s e.cmd))

/-- C5: the worker Get branch.  Given a pipeline and a result sender, the
worker does not panic and sends back exactly one message: the ordered value
vector, holding one value per pipeline reply, where every missing or null
reply is resolved to 0.0 (not an error) and every present reply is passed
through unchanged. -/
theorem worker_get_delivers (s : Store) (p : List PipeEntry) (kn : String)
    (lh : Option String) (v : Float) (i : Nat) (hi : i < readCount p) :
    sentOf (workerStep s (mkJob .get kn lh v true (some p)))
        = [((execPipeline s p).2).map (fun r => r.getD 0.0)]
    ∧ (((execPipeline s p).2).map (fun r => r.getD 0.0)).length = readCount p
    ∧ (((execPipeline s p).2).getD i none = none →
        (((execPipeline s p).2).map (fun r => r.getD 0.0)).getD i 1.0 = 0.0)
    ∧ ∀ x : Float, ((execPipeline s p).2).getD i none = some x →
        (((execPipeline s p).2).map (fun r => r.getD 0.0)).getD i 1.0 = x := by
  have hlen : i < ((execPipeline s p).2).length := by
    rw [execPipeline_length p s]; exact hi
  have hgd : ((execPipeline s p).2).getD i none = ((execPipeline s p).2)[i] := by
    rw [List.getD_eq_getElem?_getD, List.getElem?_eq_getElem hlen]; rfl
  have hmapgd : (((execPipeline s p).2).map (fun r => r.getD 0.0)).getD i 1.0
      = (((execPipeline s p).2)[i]).getD 0.0 := by
    rw [List.getD_eq_getElem?_getD, List.getElem?_map,
      List.getElem?_eq_getElem hlen]
    rfl
  refine ⟨rfl, ?_, ?_, ?_⟩
  · rw [List.length_map, execPipeline_length p s]
  · intro h
    rw [hgd] at h
    rw [hmapgd, h]
    rfl
  · intro x h
    rw [hgd] at h
    rw [hmapgd, h]
    rfl

/-- The concrete one-command pipeline used by the C5 witness. -/
def witnessPipe : List PipeEntry :=
  [{ cmd := PipeCmd.get "requests_total", ignored := false }]

/-- Witness for C5: a pipeline reading one key that was never written; the
single delivered message resolves it to 0.0. -/
theorem worker_get_delivers_witness :
    0 < readCount witnessPipe
    ∧ (sentOf (workerStep emptyStore (mkJob .get "" none 0.0 true
          (some witnessPipe)))
        = [((execPipeline emptyStore witnessPipe).2).map (fun r => r.getD 0.0)]
      ∧ (((execPipeline emptyStore witnessPipe).2).map
            (fun r => r.getD 0.0)).length = readCount witnessPipe
      ∧ (((execPipeline emptyStore witnessPipe).2).getD 0 none = none →
          (((execPipeline emptyStore witnessPipe).2).map
              (fun r => r.getD 0.0)).getD 0 1.0 = 0.0)
      ∧ ∀ x : Float, ((execPipeline emptyStore witnessPipe).2).getD 0 none = some x →
          (((execPipeline emptyStore witnessPipe).2).map
              (fun r => r.getD 0.0)).getD 0 1.0 = x) :=
  ⟨by decide, worker_get_delivers emptyStore witnessPipe "" none 0.0 0 (by decide)⟩

/-- Reply counting distributes over pipeline concatenation. -/
theorem readCount_append (p q : List PipeEntry) :
    readCount (p ++ q) = readCount p + readCount q := by
  simp [readCount, List.filter_append]

/-- Each sample contributes exactly one reply-producing command. -/
theorem readCount_samplePipe (smp : SampleIn) :
    readCount (samplePipe smp) = 1 :=
  rfl

/-- One collector contributes one reply-producing command per sample. -/
theorem readCount_collectorPipe (c : List SampleIn) :
    readCount (collectorPipe c) = c.length := by
  induction c with
  | nil => rfl
  | cons smp rest ih =>
      show readCount (samplePipe smp ++ collectorPipe rest) = rest.length + 1
      rw [readCount_append, readCount_samplePipe, ih]
      omega

/-- The full snapshot pipeline holds one reply-producing command per sample
over all collectors. -/
theorem readCount_buildPipeline (colls : List (List SampleIn)) :
    readCount (buildPipeline colls) = totalSamples colls := by
  induction colls with
  | nil => rfl
  | cons c cs ih =>
      show readCount (collectorPipe c ++ buildPipeline cs) = totalSamples (c :: cs)
      rw [readCount_append, readCount_collectorPipe, ih]
      simp [totalSamples]

/-- The zip distribution never changes the number of placeholders. -/
theorem assignFlat_length (g : List OutSample) :
    ∀ vs : List Float, (assignFlat g vs).length = g.length := by
  induction g with
  | nil => intro vs; cases vs <;> rfl
  | cons o rest ih =>
      intro vs
      cases vs with
      | nil => rfl
      | cons v vs2 => simp [assignFlat, ih]

/-- With enough values, the distributed values are exactly the prefix of the
value vector, in order. -/
theorem assignFlat_map_value (g : List OutSample) :
    ∀ vs : List Float, g.length ≤ vs.length →
      (assignFlat g vs).map OutSample.value = vs.take g.length := by
  induction g with
  | nil => intro vs _; cases vs <;> rfl
  | cons o rest ih =>
      intro vs hle
      cases vs with
      | nil => simp at hle
      | cons v vs2 =>
          simp only [assignFlat, List.map_cons, List.length_cons,
            List.take_succ_cons]
          have hle2 : rest.length ≤ vs2.length := by
            simp only [List.length_cons] at hle; omega
          rw [ih vs2 hle2]

/-- The zip distribution never changes a suffix or a label mapping. -/
theorem assignFlat_map_meta (g : List OutSample) :
    ∀ vs : List Float, (assignFlat g vs).map outMeta = g.map outMeta := by
  induction g with
  | nil => intro vs; cases vs <;> rfl
  | cons o rest ih =>
      intro vs
      cases vs with
      | nil => rfl
      | cons v vs2 => simp [assignFlat, outMeta, ih]

/-- The nested distribution preserves the per-collector group sizes. -/
theorem assignNested_map_length (gs : List (List OutSample)) :
    ∀ vs : List Float,
      (assignNested gs vs).map List.length = gs.map List.length := by
  induction gs with
  | nil => intro vs; rfl
  | cons g gs2 ih => intro vs; simp [assignNested, assignFlat_length, ih]

/-- The nested distribution preserves every suffix and label mapping, in
collector-then-sample order. -/
theorem assignNested_flatten_meta (gs : List (List OutSample)) :
    ∀ vs : List Float,
      (assignNested gs vs).flatten.map outMeta = gs.flatten.map outMeta := by
  induction gs with
  | nil => intro vs; rfl
  | cons g gs2 ih =>
      intro vs
      simp [assignNested, List.map_append, assignFlat_map_meta, ih]

/-- With enough values, the flattened distributed values are exactly the
value vector prefix of the total placeholder count, in order. -/
theorem assignNested_flatten_value (gs : List (List OutSample)) :
    ∀ vs : List Float, (gs.map List.length).sum ≤ vs.length →
      (assignNested gs vs).flatten.map OutSample.value
        = vs.take (gs.map List.length).sum := by
  induction gs with
  | nil => intro vs _; rfl
  | cons g gs2 ih =>
      intro vs hle
      have hsum : ((g :: gs2).map List.length).sum
          = g.length + (gs2.map List.length).sum := by
        simp
      have hg : g.length ≤ vs.length := by
        rw [hsum] at hle; omega
      have h2 : (gs2.map List.length).sum ≤ (vs.drop g.length).length := by
        rw [List.length_drop]; rw [hsum] at hle; omega
      simp only [assignNested, List.flatten_cons, List.map_append]
      rw [assignFlat_map_value g vs hg, ih (vs.drop g.length) h2, hsum,
        List.take_add]

/-- The placeholder groups have the same sizes as the sample groups. -/
theorem placeholders_map_length (colls : List (List SampleIn)) :
    (placeholders colls).map List.length = colls.map List.length := by
  simp [placeholders]

/-- Flattened placeholders carry the suffixes and label mappings of the
flattened samples, in order. -/
theorem placeholders_flatten_meta (colls : List (List SampleIn)) :
    (placeholders colls).flatten.map outMeta = colls.flatten.map inMeta := by
  induction colls with
  | nil => rfl
  | cons c cs ih =>
      simp only [placeholders, List.map_cons, List.flatten_cons,
        List.map_append] at ih ⊢
      rw [ih]
      congr 1
      simp [outMeta, inMeta, placeholderOf, List.map_map, Function.comp]

/-- Closed form of a snapshot pass: the worker executes the built pipeline,
delivers the single value vector, and the distribution writes it onto the
placeholders. -/
theorem generateSamples_eq (s : Store) (colls : List (List SampleIn)) :
    generateSamples s colls
      = some ((execPipeline s (buildPipeline colls)).1,
          assignNested (placeholders colls)
            (((execPipeline s (buildPipeline colls)).2).map
              (fun r => r.getD 0.0))) :=
  rfl

/-- C1 (amended): in every snapshot pass the pipeline holds exactly one read
per output-sample placeholder, the worker returns exactly one value per
read, the pass completes, group sizes are preserved, the returned values
land on the flattened placeholders positionally in collector-then-sample
order, and every suffix and label mapping is preserved.  (The fail-loudly
clause of the original claim does not hold; see the counterexample.) -/
theorem generate_samples_alignment (s : Store) (colls : List (List SampleIn)) :
    readCount (buildPipeline colls) = totalSamples colls
    ∧ (repliesOf s colls).length = totalSamples colls
    ∧ (generateSamples s colls).isSome = true
    ∧ (outputOf s colls).map List.length = colls.map List.length
    ∧ (outputOf s colls).flatten.map OutSample.value
        = (repliesOf s colls).map (fun r => r.getD 0.0)
    ∧ (outputOf s colls).flatten.map outMeta = colls.flatten.map inMeta := by
  have hrc : readCount (buildPipeline colls) = totalSamples colls :=
    readCount_buildPipeline colls
  have hlen : (repliesOf s colls).length = totalSamples colls := by
    rw [repliesOf, execPipeline_length]; exact hrc
  have hout : outputOf s colls
      = assignNested (placeholders colls)
          ((repliesOf s colls).map (fun r => r.getD 0.0)) := by
    rw [outputOf, generateSamples_eq]
    rfl
  have hvlen : ((repliesOf s colls).map (fun r => r.getD 0.0)).length
      = totalSamples colls := by
    rw [List.length_map]; exact hlen
  have hsum : ((placeholders colls).map List.length).sum = totalSamples colls := by
    rw [placeholders_map_length]; rfl
  refine ⟨hrc, hlen, ?_, ?_, ?_, ?_⟩
  · rw [generateSamples_eq]; rfl
  · rw [hout, assignNested_map_length, placeholders_map_length]
  · rw [hout,
      assignNested_flatten_value _ _ (le_of_eq (hsum.trans hvlen.symm)),
      hsum, ← hvlen]
    exact List.take_length _
  · rw [hout, assignNested_flatten_meta, placeholders_flatten_meta]

/-- C1 counterexample to the fail-loudly clause: the distribution step of
the snapshot pass, fed a mismatched value vector (two placeholders, one
value), raises nothing - it returns normally, silently leaving the
unmatched placeholder at its 0.0 placeholder value. -/
theorem assign_mismatch_is_silent :
    assignNested
        [[{ suffix := "_sum", labels := none, value := 0.0 },
          { suffix := "_count", labels := none, value := 0.0 }]]
        [(7.5 : Float)]
      = [[{ suffix := "_sum", labels := none, value := 7.5 },
          { suffix := "_count", labels := none, value := 0.0 }]] :=
  rfl
